import Mathlib

/-!
Verification of the json-render declarative-to-source compiler.

This file gives a shallow embedding of the parts of the repository that the
checked properties speak about:

* `packages/core/src/selector-schema.ts` — the descriptor types for
  cross-source selectors (data sources, filter predicates, transform
  operations, aggregations, output shapes, memoization config);
* `packages/codegen/src/selector-generator.ts` — the derived-state compiler
  (filter/transform/aggregation code emission, the pure-vs-hook strategy
  decision, import generation, batch file emission);
* `packages/core/src/table-schema.ts` — field enumeration order of the three
  generated table representations;
* `packages/core/src/slice-schema.ts` and the slice code generator — the
  type-table defaults for omitted state-field defaults.

JavaScript runtime values (`z.unknown()` payloads) are modelled by `JSValue`;
generated source text is modelled by `String`, with every brace written via
its escape. Semantic claims about the *emitted* code (sort stability, unique
idempotence, avg on empty input) are settled against denotation functions
that mirror the emitted templates; `Array.prototype.sort` is modelled as a
stable merge sort in which element `a` precedes `b` whenever the comparator
value is non-positive.
-/

set_option maxRecDepth 40000

/-- Model of a JavaScript runtime value, used for the `z.unknown()` payloads
(filter comparison values, column/field defaults, reduce seeds). -/
inductive JSValue where
  | nullV : JSValue
  | boolV : Bool → JSValue
  | numV : Int → JSValue
  | strV : String → JSValue
  | arrV : List JSValue → JSValue
  | objV : List (String × JSValue) → JSValue

mutual

/-- Model of `JSON.stringify` on `JSValue` (string escaping is not modelled;
the generator is only ever exercised on escape-free strings here). -/
def jsonStringify : JSValue → String
  | .nullV => "null"
  | .boolV true => "true"
  | .boolV false => "false"
  | .numV n => toString n
  | .strV s => "\"" ++ s ++ "\""
  | .arrV xs => "[" ++ String.intercalate "," (jsonStringifyList xs) ++ "]"
  | .objV fs => "\x7b" ++ String.intercalate "," (jsonStringifyFields fs) ++ "\x7d"

/-- Renders the elements of a JSON array. -/
def jsonStringifyList : List JSValue → List String
  | [] => []
  | x :: xs => jsonStringify x :: jsonStringifyList xs

/-- Renders the fields of a JSON object. -/
def jsonStringifyFields : List (String × JSValue) → List String
  | [] => []
  | (k, v) :: fs => ("\"" ++ k ++ "\":" ++ jsonStringify v) :: jsonStringifyFields fs

end

/-- Model of interpolating a possibly-`undefined` JS value through
`JSON.stringify` into a template literal (`JSON.stringify(undefined)` is
`undefined`, which prints as the text `undefined`). -/
def jsonStringifyOpt : Option JSValue → String
  | some v => jsonStringify v
  | none => "undefined"

/-- `DataSourceSchema` of `selector-schema.ts`: discriminated union of the
three input source kinds of a cross-source selector. -/
inductive DataSource where
  | collection : String → Option String → DataSource
  | slice : String → String → DataSource
  | selector : String → DataSource
deriving DecidableEq

/-- The discriminant tag of a `DataSource` (`source.type` in the schema). -/
inductive SourceKind where
  | collection
  | slice
  | selector
deriving DecidableEq

/-- Projection of the `type` tag of a data source. -/
def DataSource.kind : DataSource → SourceKind
  | .collection _ _ => .collection
  | .slice _ _ => .slice
  | .selector _ => .selector

/-- `SelectorInputSchema` of `selector-schema.ts`: a named input binding. -/
structure CrossSelectorInput where
  name : String
  source : DataSource
deriving DecidableEq

/-- The comparison operators of `FilterPredicateSchema`. -/
inductive FilterOperator where
  | eq
  | neq
  | gt
  | gte
  | lt
  | lte
  | inOp
  | contains
deriving DecidableEq

/-- `FilterPredicateSchema` of `selector-schema.ts`. `valueFrom` carries the
`selector` string of the `\x7b selector \x7d` object. -/
structure FilterPredicate where
  field : String
  operator : FilterOperator
  value : Option JSValue
  valueFrom : Option String

/-- The `compute` tags of the computed-field variant of `FieldMappingSchema`. -/
inductive ComputeOp where
  | concat
  | sum
  | multiply
  | format
deriving DecidableEq

/-- `FieldMappingSchema` of `selector-schema.ts`: passthrough, rename, or
computed field (the source's `from` key is spelled `srcField` since `from`
is a Lean keyword). -/
inductive FieldMapping where
  | keep : String → FieldMapping
  | rename : (srcField : String) → (dstField : String) → FieldMapping
  | computed : (name : String) → (compute : ComputeOp) → (args : List String) → FieldMapping
deriving DecidableEq

/-- Sort direction of the `sort` transform operation. -/
inductive SortDirection where
  | asc
  | desc
deriving DecidableEq

/-- `TransformOperationSchema` of `selector-schema.ts`. The extra `other`
constructor models a runtime operation value whose `op` tag lies outside the
schema union (JavaScript object tags are open at runtime); it is handled by
the `default` branch of the `switch` in `applyTransformation`. The source's
`end` key of `slice` is spelled `stop` since `end` is a Lean keyword. -/
inductive TransformOperation where
  | filter : FilterPredicate → TransformOperation
  | map : List FieldMapping → TransformOperation
  | sort : (field : String) → SortDirection → TransformOperation
  | slice : (start : Option Int) → (stop : Option Int) → TransformOperation
  | groupBy : (field : String) → TransformOperation
  | unique : (field : Option String) → TransformOperation
  | other : TransformOperation

/-- `AggregationSchema` of `selector-schema.ts`. The extra `otherAgg`
constructor models a runtime aggregation value whose `type` tag lies outside
the schema union; it is handled by the `default` branch of the `switch` in
`applyAggregation`. -/
inductive Aggregation where
  | count
  | sum : String → Aggregation
  | avg : String → Aggregation
  | min : String → Aggregation
  | max : String → Aggregation
  | first
  | last
  | reduce : (reducer : String) → (initial : Option JSValue) → Aggregation
  | otherAgg

/-- `OutputTypeSchema` of `selector-schema.ts`; the `object` variant's record
is modelled as an insertion-ordered association list, matching
`Object.entries` iteration order. -/
inductive OutputType where
  | array
  | single
  | aggregation : Aggregation → OutputType
  | object : List (String × Aggregation) → OutputType

/-- The `equalityFn` values of `MemoizationConfigSchema`. -/
inductive EqualityFn where
  | shallow
  | deep
  | reference
deriving DecidableEq

/-- `MemoizationConfigSchema` of `selector-schema.ts`. -/
structure MemoizationConfig where
  enabled : Bool
  maxSize : Option Int
  equalityFn : Option EqualityFn
deriving DecidableEq

/-- `CrossSourceSelectorSchema` of `selector-schema.ts`. -/
structure CrossSourceSelector where
  name : String
  description : String
  inputs : List CrossSelectorInput
  pipeline : Option (List TransformOperation)
  output : OutputType
  memoize : Option MemoizationConfig

/-- Model of `String.prototype.replace(/^select/, "")`: drop a leading
`select` if present (computed over the character list). -/
def dropSelect (s : String) : String :=
  if "select".toList.isPrefixOf s.toList then String.mk (s.toList.drop 6) else s

/-- Model of iterating a JavaScript `Set` built by successive insertion:
keeps the first occurrence of each element, in insertion order. `seen` is
the set of already-inserted elements. -/
def jsSetDedupAux [DecidableEq α] (seen : List α) : List α → List α
  | [] => []
  | x :: xs =>
    if x ∈ seen then jsSetDedupAux seen xs
    else x :: jsSetDedupAux (x :: seen) xs

/-- `[...new Set(l)]`: deduplicate, first occurrence wins, insertion order. -/
def jsSetDedup [DecidableEq α] (l : List α) : List α :=
  jsSetDedupAux [] l

/-- `operatorToJS` of `selector-generator.ts` (lines 22–34): comparison
operator to JavaScript token; `in`/`contains` map to the empty string and are
handled specially by the caller; the `|| "==="` fallback is unreachable for
the closed operator enum. -/
def operatorToJS : FilterOperator → String
  | .eq => "==="
  | .neq => "!=="
  | .gt => ">"
  | .gte => ">="
  | .lt => "<"
  | .lte => "<="
  | .inOp => ""
  | .contains => ""

/-- `generateFilterExpression` of `selector-generator.ts` (lines 39–51). -/
def generateFilterExpression (predicate : FilterPredicate) : String :=
  let valueExpr :=
    match predicate.valueFrom with
    | some sel => sel
    | none => jsonStringifyOpt predicate.value
  if predicate.operator = .inOp then
    valueExpr ++ ".includes(item." ++ predicate.field ++ ")"
  else if predicate.operator = .contains then
    "item." ++ predicate.field ++ ".includes(" ++ valueExpr ++ ")"
  else
    "item." ++ predicate.field ++ " " ++ operatorToJS predicate.operator ++ " " ++ valueExpr

/-- The head of `args`, as JavaScript member access renders it
(`args[0]` of an empty array is `undefined`). -/
def firstArgName : List String → String
  | [] => "undefined"
  | a :: _ => a

/-- `generateComputedField` of `selector-generator.ts` (lines 56–78). -/
def generateComputedField : FieldMapping → String
  | .keep s => s
  | .rename srcField dstField => dstField ++ ": item." ++ srcField
  | .computed name c args =>
    match c with
    | .concat =>
      name ++ ": [" ++ String.intercalate ", " (args.map (fun a => "item." ++ a)) ++ "].join(\" \")"
    | .sum => name ++ ": " ++ String.intercalate " + " (args.map (fun a => "item." ++ a))
    | .multiply => name ++ ": " ++ String.intercalate " * " (args.map (fun a => "item." ++ a))
    | .format => name ++ ": String(item." ++ firstArgName args ++ ")"

/-- Rendering of `op.start ?? 0` for the `slice` transform. -/
def sliceStartText : Option Int → String
  | some s => toString s
  | none => "0"

/-- Rendering of `op.end ? \x60, $\x7bop.end\x7d\x60 : ""` for the `slice`
transform (JavaScript truthiness: an `end` of `0` is dropped). -/
def sliceEndText : Option Int → String
  | some e => if e = 0 then "" else ", " ++ toString e
  | none => ""

/-- `applyTransformation` of `selector-generator.ts` (lines 83–113); the
`other` case is the `switch`'s `default: return input`. -/
def applyTransformation (input : String) : TransformOperation → String
  | .filter predicate => input ++ ".filter(item => " ++ generateFilterExpression predicate ++ ")"
  | .map fs =>
    let fields := (fs.map generateComputedField).filter (fun s => s ≠ "")
    input ++ ".map(item => (\x7b " ++ String.intercalate ", " fields ++ " \x7d))"
  | .sort field dir =>
    let dirText := match dir with
      | .desc => "-1"
      | .asc => "1"
    let negDirText := match dir with
      | .desc => "1"
      | .asc => "-1"
    "[..." ++ input ++ "].sort((a, b) => (a." ++ field ++ " > b." ++ field ++ " ? " ++
      dirText ++ " : " ++ negDirText ++ "))"
  | .slice start stop => input ++ ".slice(" ++ sliceStartText start ++ sliceEndText stop ++ ")"
  | .groupBy field => "Object.groupBy(" ++ input ++ ", item => item." ++ field ++ ")"
  | .unique (some field) =>
    "[...new Map(" ++ input ++ ".map(item => [item." ++ field ++ ", item])).values()]"
  | .unique none => "[...new Set(" ++ input ++ ")]"
  | .other => input

/-- `applyAggregation` of `selector-generator.ts` (lines 118–139); the
`otherAgg` case is the `switch`'s `default: return input`. -/
def applyAggregation (input : String) : Aggregation → String
  | .count => input ++ ".length"
  | .sum field => input ++ ".reduce((acc, item) => acc + (item." ++ field ++ " ?? 0), 0)"
  | .avg field =>
    input ++ ".length > 0 ? " ++ input ++ ".reduce((acc, item) => acc + (item." ++ field ++
      " ?? 0), 0) / " ++ input ++ ".length : 0"
  | .min field => "Math.min(..." ++ input ++ ".map(item => item." ++ field ++ "))"
  | .max field => "Math.max(..." ++ input ++ ".map(item => item." ++ field ++ "))"
  | .first => input ++ "[0] ?? null"
  | .last => input ++ "[" ++ input ++ ".length - 1] ?? null"
  | .reduce reducer initial => input ++ ".reduce(" ++ reducer ++ ", " ++ jsonStringifyOpt initial ++ ")"
  | .otherAgg => input

/-- `applyOutputTransform` of `selector-generator.ts` (lines 144–163). -/
def applyOutputTransform (input : String) : OutputType → String
  | .array => "return " ++ input ++ ";"
  | .single => "return " ++ input ++ "[0] ?? null;"
  | .aggregation agg => "return " ++ applyAggregation input agg ++ ";"
  | .object fs =>
    let fields := String.intercalate ",\n      "
      (fs.map (fun kv => kv.1 ++ ": " ++ applyAggregation input kv.2))
    "return \x7b\n      " ++ fields ++ "\n    \x7d;"

/-- `generateInputHook` of `selector-generator.ts` (lines 168–187). The
`default` branch of the source `switch` is unreachable for the closed
discriminated union. -/
def generateInputHook (input : CrossSelectorInput) : String :=
  match input.source with
  | .slice sl path =>
    "const " ++ input.name ++ " = useAppSelector(state => state." ++ sl ++ "." ++ path ++ ");"
  | .collection c (some q) =>
    "const \x7b data: " ++ input.name ++ " = [] \x7d = useLiveQuery(" ++ c ++
      "Collection.queries." ++ q ++ ");"
  | .collection c none =>
    "const \x7b data: " ++ input.name ++ " = [] \x7d = useLiveQuery((q) => q.from(\x7b items: " ++
      c ++ "Collection \x7d));"
  | .selector sel => "const " ++ input.name ++ " = use" ++ dropSelect sel ++ "();"

/-- `generateSelectorImports` of `selector-generator.ts` (lines 192–229).
The three `Set<string>`s are modelled by first-occurrence deduplication;
`sliceImports` is collected but (as in the source) never rendered. -/
def generateSelectorImports (inputs : List CrossSelectorInput) : String :=
  let _sliceImports := jsSetDedup (inputs.filterMap (fun i =>
    match i.source with
    | .slice sl _ => some sl
    | _ => none))
  let collectionImports := jsSetDedup (inputs.filterMap (fun i =>
    match i.source with
    | .collection c _ => some c
    | _ => none))
  let selectorImports := jsSetDedup (inputs.filterMap (fun i =>
    match i.source with
    | .selector s => some s
    | _ => none))
  let collectionLines := collectionImports.map (fun c =>
    "import \x7b " ++ c ++ "Collection \x7d from \"../db/collections/" ++ c ++ "Collection\";")
  let selectorLines :=
    if selectorImports.isEmpty then []
    else
      let hooks := selectorImports.map (fun s => "use" ++ dropSelect s)
      ["import \x7b " ++ String.intercalate ", " hooks ++ " \x7d from \"./index\";"]
  String.intercalate "\n" (collectionLines ++ selectorLines)

/-- `generateSelectorBody` of `selector-generator.ts` (lines 234–251):
fold the pipeline over the first input's binding, then shape the output. -/
def generateSelectorBody (inputs : List CrossSelectorInput)
    (pipeline : Option (List TransformOperation)) (output : OutputType) : String :=
  let start := match inputs with
    | [] => "data"
    | i :: _ => i.name
  let result := match pipeline with
    | some ops => ops.foldl applyTransformation start
    | none => start
  applyOutputTransform result output

/-- `hasOnlySliceSources` of `selector-generator.ts` (lines 256–258). -/
def hasOnlySliceSources (inputs : List CrossSelectorInput) : Bool :=
  inputs.all (fun i =>
    match i.source with
    | .slice _ _ => true
    | _ => false)

/-- Rendering of one entry of the `createSelector` input array in
`generateRTKSelector`; the source casts `i.source` to the slice shape, so a
non-slice source reads `undefined` properties. -/
def rtkInputSelector (i : CrossSelectorInput) : String :=
  match i.source with
  | .slice sl path => "(state: RootState) => state." ++ sl ++ "." ++ path
  | _ => "(state: RootState) => state.undefined.undefined"

/-- `generateRTKSelector` of `selector-generator.ts` (lines 263–287). -/
def generateRTKSelector (s : CrossSourceSelector) : String :=
  let inputSelectors := String.intercalate ",\n    " (s.inputs.map rtkInputSelector)
  let body := generateSelectorBody s.inputs s.pipeline s.output
  "\n/**\n * " ++ s.description ++ "\n */\nexport const " ++ s.name ++
    " = createSelector(\n  [\n    " ++ inputSelectors ++ "\n  ],\n  (" ++
    String.intercalate ", " (s.inputs.map (·.name)) ++ ") => \x7b\n    " ++ body ++
    "\n  \x7d\n);"

/-- `generateHookSelector` of `selector-generator.ts` (lines 292–310). -/
def generateHookSelector (s : CrossSourceSelector) : String :=
  let hookName := "use" ++ dropSelect s.name
  let inputHooks := String.intercalate "\n  " (s.inputs.map generateInputHook)
  let body := generateSelectorBody s.inputs s.pipeline s.output
  "\n/**\n * " ++ s.description ++ "\n */\nexport function " ++ hookName ++
    "() \x7b\n  " ++ inputHooks ++ "\n\n  return useMemo(() => \x7b\n    " ++ body ++
    "\n  \x7d, [" ++ String.intercalate ", " (s.inputs.map (·.name)) ++ "]);\n\x7d"

/-- The pure-memoized file shape: the slice-only branch of
`generateCrossSourceSelectorCode` (lines 326–331). -/
def rtkFileCode (s : CrossSourceSelector) : String :=
  generateSelectorImports s.inputs ++
    "\nimport \x7b createSelector \x7d from \"@reduxjs/toolkit\";\nimport type \x7b RootState \x7d from \"../store\";\n\n" ++
    generateRTKSelector s ++ "\n"

/-- The reactive-hook file shape: the mixed-sources branch of
`generateCrossSourceSelectorCode` (lines 335–341). -/
def hookFileCode (s : CrossSourceSelector) : String :=
  generateSelectorImports s.inputs ++
    "\nimport \x7b useLiveQuery \x7d from \"@tanstack/react-db\";\nimport \x7b useMemo \x7d from \"react\";\nimport \x7b useAppSelector \x7d from \"../store/hooks\";\n\n" ++
    generateHookSelector s ++ "\n"

/-- `generateCrossSourceSelectorCode` of `selector-generator.ts`
(lines 315–342). The `_memoized` binding mirrors the source's
`const memoized = memoize?.enabled !== false`, which is computed and never
used. -/
def generateCrossSourceSelectorCode (s : CrossSourceSelector) : String :=
  let _memoized : Bool :=
    match s.memoize with
    | some m => m.enabled
    | none => true
  if hasOnlySliceSources s.inputs then rtkFileCode s else hookFileCode s

/-- `generateSelectorsIndexCode` of `selector-generator.ts` (lines 347–361). -/
def generateSelectorsIndexCode (selectors : List CrossSourceSelector) : String :=
  let exports := selectors.map (fun s =>
    if hasOnlySliceSources s.inputs then
      "export \x7b " ++ s.name ++ " \x7d from \"./" ++ s.name ++ "\";"
    else
      "export \x7b use" ++ dropSelect s.name ++ " \x7d from \"./" ++ s.name ++ "\";")
  "// Cross-source selectors\n" ++ String.intercalate "\n" exports ++ "\n"

/-- `generateSelectorFiles` of `selector-generator.ts` (lines 366–379): the
`Record<string, string>` is modelled as an insertion-ordered association
list; one file per selector, in input order, then the index file. -/
def generateSelectorFiles (selectors : List CrossSourceSelector) : List (String × String) :=
  (selectors.map (fun s =>
    ("selectors/" ++ s.name ++ ".ts", generateCrossSourceSelectorCode s))) ++
    [("selectors/index.ts", generateSelectorsIndexCode selectors)]

/-- `FieldTypeSchema` of `table-schema.ts`: column types. -/
inductive FieldType where
  | string
  | number
  | boolean
  | date
  | datetime
  | json
  | uuid
deriving DecidableEq

/-- `ColumnConstraintsSchema` of `table-schema.ts`. -/
structure ColumnConstraints where
  minLength : Option Int
  maxLength : Option Int
  min : Option Int
  max : Option Int
  pattern : Option String
  enum : Option (List String)

/-- `ColumnSchema` of `table-schema.ts`. -/
structure Column where
  name : String
  type : FieldType
  nullable : Bool
  default : Option JSValue
  description : Option String
  constraints : Option ColumnConstraints

/-- `IndexSchema` of `table-schema.ts`. -/
structure TableIndex where
  name : String
  columns : List String
  unique : Bool

/-- `TableSchemaDefinition` of `table-schema.ts` (relationships carry no
field-enumeration content and are omitted). -/
structure TableSchema where
  name : String
  description : String
  primaryKey : String
  columns : List Column
  indexes : Option (List TableIndex)
  timestamps : Bool
  softDelete : Bool

/-- `table.columns.some((c) => c.name === table.primaryKey)`: whether the
primary key is among the declared columns. -/
def tableHasPrimaryKey (t : TableSchema) : Bool :=
  t.columns.any (fun c => c.name == t.primaryKey)

/-- The names, in order, of the fields pushed onto the `fields` array by
`tableToZodSchema` of `table-schema.ts` (lines 156–213): declared columns
are mapped first, then the synthesized primary key is `unshift`ed to the
FRONT when absent, then `createdAt`/`updatedAt` and `deletedAt` are pushed
to the back. -/
def zodFieldNames (t : TableSchema) : List String :=
  let fields := t.columns.map (·.name)
  let fields := if !tableHasPrimaryKey t then t.primaryKey :: fields else fields
  let fields := fields ++ (if t.timestamps then ["createdAt", "updatedAt"] else [])
  fields ++ (if t.softDelete then ["deletedAt"] else [])

/-- The names, in order, of the fields pushed onto the `fields` array by
`tableToTypeScript` of `table-schema.ts` (lines 252–273): same `unshift`
placement of the synthesized primary key. -/
def tsFieldNames (t : TableSchema) : List String :=
  let fields := t.columns.map (·.name)
  let fields := if !tableHasPrimaryKey t then t.primaryKey :: fields else fields
  let fields := fields ++ (if t.timestamps then ["createdAt", "updatedAt"] else [])
  fields ++ (if t.softDelete then ["deletedAt"] else [])

/-- The names, in order, of the column definitions pushed onto the `columns`
array by `tableToSQL` of `table-schema.ts` (lines 297–328): the synthesized
primary key is pushed BEFORE the declared columns, then timestamps, then the
soft-delete column. -/
def sqlFieldNames (t : TableSchema) : List String :=
  let columns := if !tableHasPrimaryKey t then [t.primaryKey] else []
  let columns := columns ++ t.columns.map (·.name)
  let columns := columns ++ (if t.timestamps then ["createdAt", "updatedAt"] else [])
  columns ++ (if t.softDelete then ["deletedAt"] else [])

/-- `StateValueTypeSchema` of `slice-schema.ts`: the closed union of state
value types (`"string" | "number" | "boolean" | "string[]" | "number[]"`
plus the three object forms). -/
inductive StateValueType where
  | string
  | number
  | boolean
  | stringArray
  | numberArray
  | arrayOf : String → StateValueType
  | record : String → String → StateValueType
  | nullable : String → StateValueType
deriving DecidableEq

/-- `StateFieldSchema` of `slice-schema.ts`. -/
structure StateField where
  name : String
  type : StateValueType
  default : Option JSValue
  description : Option String

/-- `getDefaultForType` of the slice code generator (`src/unnamed/part_008`,
lines 363–380): the type-table default used when a state field omits its
`default`. -/
def getDefaultForType : StateValueType → JSValue
  | .string => .strV ""
  | .number => .numV 0
  | .boolean => .boolV false
  | .stringArray => .arrV []
  | .numberArray => .arrV []
  | .arrayOf _ => .arrV []
  | .record _ _ => .objV []
  | .nullable _ => .nullV

/-- `getDefaultForStateType` of `slice-schema.ts` (lines 225–242); same
table as `getDefaultForType`. -/
def getDefaultForStateType : StateValueType → JSValue
  | .string => .strV ""
  | .number => .numV 0
  | .boolean => .boolV false
  | .stringArray => .arrV []
  | .numberArray => .arrV []
  | .arrayOf _ => .arrV []
  | .record _ _ => .objV []
  | .nullable _ => .nullV

/-- The initial-state value computed per field by `generateSliceCode`
(`src/unnamed/part_008`, lines 534–541):
`f.default !== undefined ? f.default : getDefaultForType(f.type)`. -/
def sliceInitialValue (f : StateField) : JSValue :=
  match f.default with
  | some v => v
  | none => getDefaultForType f.type

/-- The type-table of the specification, stated in the spec's own words
(§4.3/§8: `string→""`, `number→0`, `boolean→false`, arrays→`[]`,
`record→\x7b\x7d`, nullable→`null`), for comparison against the code's
tables. -/
def specStateDefault : StateValueType → JSValue
  | .string => .strV ""
  | .number => .numV 0
  | .boolean => .boolV false
  | .stringArray => .arrV []
  | .numberArray => .arrV []
  | .arrayOf _ => .arrV []
  | .record _ _ => .objV []
  | .nullable _ => .nullV

/-- The `(a, b) => (a.f > b.f ? dir : -dir)` comparator emitted by the
`sort` case of `applyTransformation`, as an integer-valued JavaScript
comparator on items with an integer sort key `f`; `dir` is `-1` for `desc`
and `1` for `asc`. -/
def jsSortComparator (f : α → Int) (dir : Int) (a b : α) : Int :=
  if f a > f b then dir else -dir

/-- Denotation of `Array.prototype.sort(cmp)`: a stable merge sort in which
`a` precedes `b` whenever `cmp a b ≤ 0`. The emitted sort operates on a
spread copy `[...input]`, so the input list itself is untouched (lists are
immutable here). -/
def jsSortSem (f : α → Int) (dir : Int) (l : List α) : List α :=
  l.mergeSort (fun a b => jsSortComparator f dir a b ≤ 0)

/-- Denotation of `.slice(start, stop)` on nonnegative indices. -/
def jsSliceSem (start stop : Nat) (l : List α) : List α :=
  (l.drop start).take (stop - start)

/-- One `map.set(k, v)` step on a JavaScript `Map` modelled as an
insertion-ordered association list: an existing key keeps its position and
gets the new value; a new key is appended. -/
def jsMapInsert [DecidableEq κ] : List (κ × α) → κ → α → List (κ × α)
  | [], k, v => [(k, v)]
  | (k', v') :: rest, k, v =>
    if k' = k then (k', v) :: rest else (k', v') :: jsMapInsert rest k v

/-- `new Map(pairs)`: insert each pair in order. -/
def jsMapOfPairs [DecidableEq κ] (ps : List (κ × α)) : List (κ × α) :=
  ps.foldl (fun m p => jsMapInsert m p.1 p.2) []

/-- Denotation of the emitted
`[...new Map(input.map(item => [item.f, item])).values()]` for
`unique \x7bfield\x7d`: per distinct key the LAST item wins, listed at the
position of the key's first occurrence. -/
def jsUniqueByField [DecidableEq κ] (f : α → κ) (l : List α) : List α :=
  (jsMapOfPairs (l.map (fun x => (f x, x)))).map Prod.snd

/-- Denotation of the emitted `[...new Set(input)]` for `unique` without a
field: deduplication keeping first occurrences in order. -/
def jsUniqueSet [DecidableEq α] (l : List α) : List α :=
  jsSetDedup l

/-- Denotation of the emitted `avg` aggregation
`input.length > 0 ? input.reduce((acc, item) => acc + (item.f ?? 0), 0) / input.length : 0`
over exact rationals (the guard makes the empty case `0` without dividing). -/
def jsAvgSem (f : α → Option ℚ) (l : List α) : ℚ :=
  if l.length > 0 then
    (l.foldl (fun acc x => acc + ((f x).getD 0)) 0) / (l.length : ℚ)
  else 0

/-- Whether `pat` occurs as a contiguous run starting at some position of
`l` (scans every suffix). -/
def hasInfixAux (pat : List Char) : List Char → Bool
  | [] => pat.isEmpty
  | c :: t => pat.isPrefixOf (c :: t) || hasInfixAux pat t

/-- Whether the string `pat` occurs verbatim inside `s`. -/
def strContains (s pat : String) : Bool :=
  hasInfixAux pat.toList s.toList

/-- The end-to-end scenario of spec §8: a selector over the `orders`
collection whose filter value resolves, through `valueFrom`, the
`filters.selectedStatus` state-container field (declared as the slice input
binding named `selectedStatus`), with a `sum(total)` aggregation output. -/
def ordersScenarioSelector : CrossSourceSelector where
  name := "selectOrdersTotal"
  description := "Sum of totals of orders matching the selected status"
  inputs := [⟨"orders", .collection "orders" none⟩,
             ⟨"selectedStatus", .slice "filters" "selectedStatus"⟩]
  pipeline := some [.filter ⟨"status", .eq, none, some "selectedStatus"⟩]
  output := .aggregation (.sum "total")
  memoize := none

/-- A selector whose inputs are all state-container paths. -/
def exSliceOnlySelector : CrossSourceSelector where
  name := "selectActiveFlag"
  description := "Reads a slice flag"
  inputs := [⟨"flag", .slice "ui" "active"⟩]
  pipeline := none
  output := .array
  memoize := none

/-- A selector with one collection input (mixed sources). -/
def exMixedSelector : CrossSourceSelector where
  name := "selectAllUsers"
  description := "All users"
  inputs := [⟨"users", .collection "users" none⟩]
  pipeline := none
  output := .array
  memoize := none

/-- Selector A of the spec's composition-ordering scenario: no dependencies. -/
def selA0 : CrossSourceSelector where
  name := "selectA"
  description := "A"
  inputs := [⟨"a", .slice "s" "a"⟩]
  pipeline := none
  output := .array
  memoize := none

/-- Selector B of the composition-ordering scenario: depends on A. -/
def selB0 : CrossSourceSelector where
  name := "selectB"
  description := "B"
  inputs := [⟨"b", .selector "selectA"⟩]
  pipeline := none
  output := .array
  memoize := none

/-- Selector C of the composition-ordering scenario: depends on B. -/
def selC0 : CrossSourceSelector where
  name := "selectC"
  description := "C"
  inputs := [⟨"c", .selector "selectB"⟩]
  pipeline := none
  output := .array
  memoize := none

/-- Selector B of the cyclic batch: depends on C. -/
def cycSelB : CrossSourceSelector where
  name := "selectB"
  description := "B of the cycle"
  inputs := [⟨"b", .selector "selectC"⟩]
  pipeline := none
  output := .array
  memoize := none

/-- Selector C of the cyclic batch: depends on B (closing the cycle). -/
def cycSelC : CrossSourceSelector where
  name := "selectC"
  description := "C of the cycle"
  inputs := [⟨"c", .selector "selectB"⟩]
  pipeline := none
  output := .array
  memoize := none

/-- A selector whose pipeline and output carry op/type tags outside the
known sets. -/
def badOpSelector : CrossSourceSelector where
  name := "selectBad"
  description := "Has an unknown op tag and an unknown aggregation tag"
  inputs := [⟨"items", .collection "orders" none⟩]
  pipeline := some [.other]
  output := .aggregation .otherAgg
  memoize := none

/-- The `Order` table of the spec's end-to-end scenario: `status`/`total`
columns, primary key `id` not among the columns, no timestamps and no soft
delete. -/
def orderTableNoPK : TableSchema where
  name := "Order"
  description := "An order"
  primaryKey := "id"
  columns := [{ name := "status", type := .string, nullable := false,
                default := none, description := none, constraints := none },
              { name := "total", type := .number, nullable := false,
                default := none, description := none, constraints := none }]
  indexes := none
  timestamps := false
  softDelete := false

/-- `hasOnlySliceSources` tests exactly the `slice` source kind. -/
theorem hasOnlySlice_eq_kinds (inputs : List CrossSelectorInput) :
    hasOnlySliceSources inputs = inputs.all (fun i => i.source.kind == SourceKind.slice) := by
  induction inputs with
  | nil => rfl
  | cons i t ih =>
    simp only [hasOnlySliceSources, List.all_cons] at *
    rw [← ih]
    cases i.source <;> rfl

/-- The file names emitted by `generateSelectorFiles`: one per selector, in
input order, then the index file. -/
theorem selectorFiles_fst_eq (selectors : List CrossSourceSelector) :
    (generateSelectorFiles selectors).map Prod.fst =
      selectors.map (fun s => "selectors/" ++ s.name ++ ".ts") ++ ["selectors/index.ts"] := by
  simp [generateSelectorFiles]

/-- C1. The generation strategy is a pure function of the input source kinds:
all-slice inputs produce the pure-memoized `createSelector` file shape, any
collection or selector input produces the reactive-hook file shape, and the
branch condition `hasOnlySliceSources` reads only the source kinds, hence is
untouched by `pipeline` and `output`. -/
theorem strategy_is_pure_function_of_input_kinds (s : CrossSourceSelector) :
    (s.inputs.all (fun i => i.source.kind == SourceKind.slice) = true →
      generateCrossSourceSelectorCode s = rtkFileCode s) ∧
    (s.inputs.any (fun i => i.source.kind == SourceKind.collection ||
        i.source.kind == SourceKind.selector) = true →
      generateCrossSourceSelectorCode s = hookFileCode s) ∧
    (∀ (p : Option (List TransformOperation)) (o : OutputType),
      hasOnlySliceSources ({ s with pipeline := p, output := o } : CrossSourceSelector).inputs =
        hasOnlySliceSources s.inputs) := by
  refine ⟨?_, ?_, fun _ _ => rfl⟩
  · intro h
    have hs : hasOnlySliceSources s.inputs = true := by
      rw [hasOnlySlice_eq_kinds]; exact h
    simp [generateCrossSourceSelectorCode, hs]
  · intro h
    obtain ⟨i, hmem, hi⟩ := List.any_eq_true.mp h
    have hs : hasOnlySliceSources s.inputs = false := by
      rw [hasOnlySlice_eq_kinds]
      apply List.all_eq_false.mpr
      refine ⟨i, hmem, ?_⟩
      cases hsrc : i.source
      · simp [DataSource.kind]
      · simp [DataSource.kind, hsrc] at hi
      · simp [DataSource.kind]
    simp [generateCrossSourceSelectorCode, hs]

/-- Witness for C1: a concrete all-slice selector takes the `createSelector`
shape and a concrete collection-bearing selector takes the hook shape. -/
theorem strategy_is_pure_function_of_input_kinds_witness :
    generateCrossSourceSelectorCode exSliceOnlySelector = rtkFileCode exSliceOnlySelector ∧
    generateCrossSourceSelectorCode exMixedSelector = hookFileCode exMixedSelector :=
  ⟨(strategy_is_pure_function_of_input_kinds exSliceOnlySelector).1 (by decide),
   (strategy_is_pure_function_of_input_kinds exMixedSelector).2.1 (by decide)⟩

/-- C2. Compiling the spec's end-to-end scenario (collection input plus the
`selectedStatus` container field resolved by the filter's `valueFrom`)
yields the hook shape, whose `useMemo` dependency list contains both the
collection binding `orders` and the container field binding
`selectedStatus`; the filter compares `item.status` against that binding
and the output sums `item.total`. -/
theorem scenario_hook_dep_list_has_collection_and_container_field :
    hasOnlySliceSources ordersScenarioSelector.inputs = false ∧
    generateCrossSourceSelectorCode ordersScenarioSelector = hookFileCode ordersScenarioSelector ∧
    strContains (generateCrossSourceSelectorCode ordersScenarioSelector)
      "\x7d, [orders, selectedStatus]);" = true ∧
    strContains (generateCrossSourceSelectorCode ordersScenarioSelector)
      "const \x7b data: orders = [] \x7d = useLiveQuery" = true ∧
    strContains (generateCrossSourceSelectorCode ordersScenarioSelector)
      "item.status === selectedStatus" = true ∧
    strContains (generateCrossSourceSelectorCode ordersScenarioSelector)
      "reduce((acc, item) => acc + (item.total ?? 0), 0)" = true :=
  ⟨rfl, rfl, by decide, by decide, by decide, by decide⟩

/-- Counterexample for C3: the emitted order follows the input order
(`[C, B, A]` is emitted as C, B, A, not re-sorted to A, B, C), and the
cyclic batch `B→C→B` is not rejected — both members' files are emitted. -/
theorem composition_order_counterexample :
    (generateSelectorFiles [selC0, selB0, selA0]).map Prod.fst =
      ["selectors/selectC.ts", "selectors/selectB.ts", "selectors/selectA.ts",
       "selectors/index.ts"] ∧
    (generateSelectorFiles [selA0, selB0, selC0]).map Prod.fst =
      ["selectors/selectA.ts", "selectors/selectB.ts", "selectors/selectC.ts",
       "selectors/index.ts"] ∧
    (generateSelectorFiles [selC0, selB0, selA0]).map Prod.fst ≠
      (generateSelectorFiles [selA0, selB0, selC0]).map Prod.fst ∧
    (generateSelectorFiles [cycSelB, cycSelC]).map Prod.fst =
      ["selectors/selectB.ts", "selectors/selectC.ts", "selectors/index.ts"] :=
  ⟨by decide, by decide, by decide, by decide⟩

/-- C3 (amended). Batch compilation performs no topological reordering and
no cycle detection: `generateSelectorFiles` emits one file per selector in
the given input order, then the index file — for every batch, cyclic ones
included. -/
theorem batch_emits_in_input_order_without_cycle_check
    (selectors : List CrossSourceSelector) :
    (generateSelectorFiles selectors).map Prod.fst =
      selectors.map (fun s => "selectors/" ++ s.name ++ ".ts") ++ ["selectors/index.ts"] :=
  selectorFiles_fst_eq selectors

/-- Counterexample for C4: for the scenario table (columns `status`,
`total`, synthesized primary key `id`), every representation enumerates the
synthesized primary key FIRST, not after the declared columns as the claim
states. -/
theorem table_field_order_counterexample :
    zodFieldNames orderTableNoPK = ["id", "status", "total"] ∧
    zodFieldNames orderTableNoPK ≠ ["status", "total", "id"] ∧
    tsFieldNames orderTableNoPK = ["id", "status", "total"] ∧
    sqlFieldNames orderTableNoPK = ["id", "status", "total"] :=
  ⟨by decide, by decide, by decide, by decide⟩

/-- C4 (amended). The three generated representations enumerate the same
fields in the same order, and that order is: the synthesized primary key
first (when `primaryKey` is not among the columns), then the declared
columns, then `createdAt`/`updatedAt` when timestamps are enabled, then
`deletedAt` when soft delete is enabled. -/
theorem table_representations_enumerate_same_fields_pk_first (t : TableSchema) :
    zodFieldNames t = tsFieldNames t ∧
    zodFieldNames t = sqlFieldNames t ∧
    zodFieldNames t =
      (if tableHasPrimaryKey t then [] else [t.primaryKey]) ++ t.columns.map (·.name) ++
        (if t.timestamps then ["createdAt", "updatedAt"] else []) ++
        (if t.softDelete then ["deletedAt"] else []) := by
  unfold zodFieldNames tsFieldNames sqlFieldNames
  refine ⟨rfl, ?_, ?_⟩ <;> cases h : tableHasPrimaryKey t <;> simp [h]

/-- C5. When a state field omits its `default`, the emitted initial value is
the type-table default, which agrees with the spec's table
(`string→""`, `number→0`, `boolean→false`, arrays→`[]`, record→`\x7b\x7d`,
nullable→`null`); the generator-side and schema-side tables agree. -/
theorem omitted_state_default_is_type_table_default
    (nm : String) (t : StateValueType) (ds : Option String) :
    sliceInitialValue { name := nm, type := t, default := none, description := ds } =
      specStateDefault t ∧
    getDefaultForType t = specStateDefault t ∧
    getDefaultForStateType t = specStateDefault t := by
  refine ⟨?_, ?_, ?_⟩ <;> cases t <;> rfl

/-- Counterexample for C6: a selector whose pipeline op tag and aggregation
type tag are outside the known sets is emitted anyway — the unknown tags
fall through to identity (body `return items;`) and no error aborts the
artifact. -/
theorem unknown_op_counterexample :
    (generateSelectorFiles [badOpSelector]).map Prod.fst =
      ["selectors/selectBad.ts", "selectors/index.ts"] ∧
    applyTransformation "items" TransformOperation.other = "items" ∧
    applyAggregation "items" Aggregation.otherAgg = "items" ∧
    strContains (generateCrossSourceSelectorCode badOpSelector) "return items;" = true :=
  ⟨by decide, rfl, rfl, by decide⟩

/-- C6 (amended). Unknown transform/aggregation op tags are not
generation-time errors: the `switch` defaults return the input expression
unchanged, and every selector of a batch — whatever its tags — has its
artifact emitted; generation is total, with no error channel. -/
theorem unknown_op_tags_fall_through_without_aborting
    (input : String) (pre post : List CrossSourceSelector) (s : CrossSourceSelector) :
    applyTransformation input TransformOperation.other = input ∧
    applyAggregation input Aggregation.otherAgg = input ∧
    ("selectors/" ++ s.name ++ ".ts") ∈
      (generateSelectorFiles (pre ++ s :: post)).map Prod.fst := by
  refine ⟨rfl, rfl, ?_⟩
  rw [selectorFiles_fst_eq]
  simp

/-- C9. The emitted `avg` aggregation carries an explicit empty-collection
guard, and its semantics on an empty pipeline result is exactly `0`. -/
theorem avg_on_empty_pipeline_result_is_zero {α : Type} (f : α → Option ℚ) :
    jsAvgSem f ([] : List α) = 0 ∧
    applyAggregation "items" (Aggregation.avg "total") =
      "items.length > 0 ? items.reduce((acc, item) => acc + (item.total ?? 0), 0) / items.length : 0" :=
  ⟨rfl, rfl⟩

/-- C10. The memoization configuration, though accepted by the descriptor
schema, has no influence on the emitted artifact: two selectors differing
only in `memoize` generate character-identical source text. -/
theorem memoize_config_never_affects_generated_code
    (s : CrossSourceSelector) (m : Option MemoizationConfig) :
    generateCrossSourceSelectorCode { s with memoize := m } =
      generateCrossSourceSelectorCode s := rfl

/-- Elements produced by `jsSetDedupAux` avoid the `seen` accumulator. -/
theorem jsSetDedupAux_not_mem_seen [DecidableEq α] :
    ∀ (l seen : List α) (x : α), x ∈ jsSetDedupAux seen l → x ∉ seen
  | [], _, _, hx => by simp [jsSetDedupAux] at hx
  | y :: l, seen, x, hx => by
    by_cases hy : y ∈ seen
    · rw [jsSetDedupAux, if_pos hy] at hx
      exact jsSetDedupAux_not_mem_seen l seen x hx
    · rw [jsSetDedupAux, if_neg hy] at hx
      rcases List.mem_cons.mp hx with h | h
      · exact h ▸ hy
      · intro hxseen
        exact jsSetDedupAux_not_mem_seen l (y :: seen) x h (List.mem_cons_of_mem y hxseen)

/-- `jsSetDedupAux` produces a duplicate-free list. -/
theorem jsSetDedupAux_nodup [DecidableEq α] :
    ∀ (l seen : List α), (jsSetDedupAux seen l).Nodup
  | [], _ => by simp [jsSetDedupAux]
  | y :: l, seen => by
    by_cases hy : y ∈ seen
    · rw [jsSetDedupAux, if_pos hy]
      exact jsSetDedupAux_nodup l seen
    · rw [jsSetDedupAux, if_neg hy]
      refine List.Nodup.cons ?_ (jsSetDedupAux_nodup l (y :: seen))
      intro hmem
      exact jsSetDedupAux_not_mem_seen l (y :: seen) y hmem (List.mem_cons_self y seen)

/-- On a duplicate-free list avoiding `seen`, `jsSetDedupAux` is the
identity. -/
theorem jsSetDedupAux_of_nodup [DecidableEq α] :
    ∀ (l seen : List α), l.Nodup → (∀ x ∈ l, x ∉ seen) → jsSetDedupAux seen l = l
  | [], _, _, _ => rfl
  | y :: l, seen, hnd, havoid => by
    have hy : y ∉ seen := havoid y (List.mem_cons_self y l)
    rw [jsSetDedupAux, if_neg hy]
    congr 1
    refine jsSetDedupAux_of_nodup l (y :: seen) (List.Nodup.of_cons hnd) ?_
    intro x hx
    rw [List.mem_cons]
    push_neg
    exact ⟨fun hxy => (List.nodup_cons.mp hnd).1 (hxy ▸ hx), havoid x (List.mem_cons_of_mem y hx)⟩

/-- The keys of a `jsMapInsert` result: unchanged for a present key,
appended for a fresh one. -/
theorem jsMapInsert_keys [DecidableEq κ] :
    ∀ (m : List (κ × α)) (k : κ) (v : α),
      (jsMapInsert m k v).map Prod.fst =
        if k ∈ m.map Prod.fst then m.map Prod.fst else m.map Prod.fst ++ [k]
  | [], k, v => by simp [jsMapInsert]
  | (k', v') :: m, k, v => by
    by_cases hk : k' = k
    · subst hk
      simp [jsMapInsert]
    · rw [jsMapInsert, if_neg hk]
      have := jsMapInsert_keys m k v
      by_cases hmem : k ∈ m.map Prod.fst
      · simp [hmem, this, Ne.symm hk]
      · simp [hmem, this, Ne.symm hk]

/-- Inserting a fresh key appends the pair. -/
theorem jsMapInsert_fresh [DecidableEq κ] :
    ∀ (m : List (κ × α)) (k : κ) (v : α), k ∉ m.map Prod.fst →
      jsMapInsert m k v = m ++ [(k, v)]
  | [], _, _, _ => rfl
  | (k', v') :: m, k, v, hfresh => by
    have hk : k' ≠ k := by
      intro h
      exact hfresh (by simp [h])
    rw [jsMapInsert, if_neg hk]
    rw [List.cons_append]
    congr 1
    exact jsMapInsert_fresh m k v (fun h => hfresh (List.mem_cons_of_mem _ h))

/-- `jsMapInsert` preserves duplicate-freedom of the key list. -/
theorem jsMapInsert_keys_nodup [DecidableEq κ] (m : List (κ × α)) (k : κ) (v : α)
    (h : (m.map Prod.fst).Nodup) : ((jsMapInsert m k v).map Prod.fst).Nodup := by
  rw [jsMapInsert_keys]
  by_cases hmem : k ∈ m.map Prod.fst
  · simpa [hmem]
  · simp only [hmem, if_false]
    simp [List.nodup_append, h, hmem]

/-- The key list of a built-up JavaScript `Map` is duplicate-free. -/
theorem jsMapOfPairs_keys_nodup_aux [DecidableEq κ] :
    ∀ (ps : List (κ × α)) (m : List (κ × α)), (m.map Prod.fst).Nodup →
      ((ps.foldl (fun acc p => jsMapInsert acc p.1 p.2) m).map Prod.fst).Nodup
  | [], _, h => h
  | p :: ps, m, h =>
    jsMapOfPairs_keys_nodup_aux ps (jsMapInsert m p.1 p.2) (jsMapInsert_keys_nodup m p.1 p.2 h)

/-- The key list of `jsMapOfPairs` is duplicate-free. -/
theorem jsMapOfPairs_keys_nodup [DecidableEq κ] (ps : List (κ × α)) :
    ((jsMapOfPairs ps).map Prod.fst).Nodup :=
  jsMapOfPairs_keys_nodup_aux ps [] (by simp)

/-- Folding inserts of pairwise-fresh keys appends the pairs. -/
theorem jsMapOfPairs_of_nodup_aux [DecidableEq κ] :
    ∀ (ps : List (κ × α)) (m : List (κ × α)),
      (m.map Prod.fst ++ ps.map Prod.fst).Nodup →
      ps.foldl (fun acc p => jsMapInsert acc p.1 p.2) m = m ++ ps
  | [], m, _ => by simp
  | (k, v) :: ps, m, h => by
    have hfresh : k ∉ m.map Prod.fst := by
      intro hk
      have := (List.nodup_append.mp h).2.2
      exact this hk (by simp)
    rw [List.foldl_cons]
    rw [jsMapInsert_fresh m k v hfresh]
    have h' : ((m ++ [(k, v)]).map Prod.fst ++ ps.map Prod.fst).Nodup := by
      simpa using h
    rw [jsMapOfPairs_of_nodup_aux ps (m ++ [(k, v)]) h']
    simp

/-- `jsMapOfPairs` of a pair list with duplicate-free keys is the identity. -/
theorem jsMapOfPairs_of_nodup [DecidableEq κ] (ps : List (κ × α))
    (h : (ps.map Prod.fst).Nodup) : jsMapOfPairs ps = ps := by
  have := jsMapOfPairs_of_nodup_aux ps [] (by simpa)
  simpa [jsMapOfPairs] using this

/-- Every pair of the built map has its key determined by `f` of its value,
provided the inserted pairs do. -/
theorem jsMapInsert_key_inv [DecidableEq κ] (f : α → κ) :
    ∀ (m : List (κ × α)) (k : κ) (v : α), (∀ p ∈ m, p.1 = f p.2) → k = f v →
      ∀ p ∈ jsMapInsert m k v, p.1 = f p.2
  | [], k, v, _, hkv, p, hp => by
    simp [jsMapInsert] at hp
    simp [hp, hkv]
  | (k', v') :: m, k, v, hm, hkv, p, hp => by
    by_cases hk : k' = k
    · subst hk
      rw [jsMapInsert, if_pos rfl] at hp
      rcases List.mem_cons.mp hp with h | h
      · simp [h, hkv]
      · exact hm p (List.mem_cons_of_mem _ h)
    · rw [jsMapInsert, if_neg hk] at hp
      rcases List.mem_cons.mp hp with h | h
      · exact h ▸ hm (k', v') (List.mem_cons_self _ _)
      · exact jsMapInsert_key_inv f m k v (fun q hq => hm q (List.mem_cons_of_mem _ hq)) hkv p h

/-- Key invariant for the map built from `l.map (fun x => (f x, x))`. -/
theorem jsMapOfPairs_key_inv_aux [DecidableEq κ] (f : α → κ) :
    ∀ (ps : List (κ × α)) (m : List (κ × α)),
      (∀ p ∈ ps, p.1 = f p.2) → (∀ p ∈ m, p.1 = f p.2) →
      ∀ p ∈ ps.foldl (fun acc q => jsMapInsert acc q.1 q.2) m, p.1 = f p.2
  | [], _, _, hm, p, hp => hm p hp
  | q :: ps, m, hps, hm, p, hp => by
    rw [List.foldl_cons] at hp
    refine jsMapOfPairs_key_inv_aux f ps (jsMapInsert m q.1 q.2)
      (fun r hr => hps r (List.mem_cons_of_mem _ hr)) ?_ p hp
    exact jsMapInsert_key_inv f m q.1 q.2 hm (hps q (List.mem_cons_self _ _))

/-- C8. The emitted `unique` transform is idempotent, with and without a
field argument: the `Map`-based last-wins deduplication and the `Set`-based
first-wins deduplication both leave an already-deduplicated list unchanged. -/
theorem unique_transform_is_idempotent {α κ : Type} [DecidableEq α] [DecidableEq κ]
    (f : α → κ) (l : List α) :
    jsUniqueByField f (jsUniqueByField f l) = jsUniqueByField f l ∧
    jsUniqueSet (jsUniqueSet l) = jsUniqueSet l := by
  constructor
  · set M := jsMapOfPairs (l.map (fun x => (f x, x))) with hM
    have hinv : ∀ p ∈ M, p.1 = f p.2 := by
      rw [hM]
      unfold jsMapOfPairs
      refine jsMapOfPairs_key_inv_aux f _ [] ?_ (by simp)
      intro p hp
      rcases List.mem_map.mp hp with ⟨x, _, hx⟩
      simp [← hx]
    have hre : (M.map Prod.snd).map (fun x => (f x, x)) = M := by
      rw [List.map_map]
      have : ∀ p ∈ M, ((fun x => (f x, x)) ∘ Prod.snd) p = id p := by
        intro p hp
        have := hinv p hp
        simp [Function.comp, ← this]
      rw [List.map_congr_left this, List.map_id]
    show (jsMapOfPairs ((M.map Prod.snd).map (fun x => (f x, x)))).map Prod.snd = M.map Prod.snd
    rw [hre, jsMapOfPairs_of_nodup M (jsMapOfPairs_keys_nodup _)]
  · show jsSetDedup (jsSetDedup l) = jsSetDedup l
    unfold jsSetDedup
    refine jsSetDedupAux_of_nodup _ [] (jsSetDedupAux_nodup l []) ?_
    intro x _
    simp

/-- The ascending emitted comparator orders by `f a ≤ f b`. -/
theorem jsSortComparator_asc_le (f : α → Int) (a b : α) :
    (decide (jsSortComparator f 1 a b ≤ 0)) = decide (f a ≤ f b) := by
  unfold jsSortComparator
  by_cases h : f a > f b
  · have h1 : ¬ (f a ≤ f b) := by omega
    simp [h, h1]
  · have h1 : f a ≤ f b := by omega
    simp [h, h1]

/-- Ascending stability: the emitted sort (stable merge-sort model of
`Array.prototype.sort` with the two-way comparator at `dir = 1`) preserves
the original relative order of items sharing a sort key. -/
theorem jsSortSem_asc_stable (f : α → Int) (l : List α) (k : Int) :
    (jsSortSem f 1 l).filter (fun x => f x == k) = l.filter (fun x => f x == k) := by
  classical
  set le : α → α → Bool := fun a b => decide (jsSortComparator f 1 a b ≤ 0) with hle
  have hle' : ∀ a b, le a b = decide (f a ≤ f b) := fun a b => jsSortComparator_asc_le f a b
  have htrans : ∀ a b c, le a b = true → le b c = true → le a c = true := by
    intro a b c hab hbc
    rw [hle', decide_eq_true_iff] at *
    omega
  have htotal : ∀ a b, (le a b || le b a) = true := by
    intro a b
    rw [hle', hle']
    by_cases h : f a ≤ f b
    · simp [h]
    · simp [h]
      omega
  set p : α → Bool := fun x => f x == k with hp
  have hmemk : ∀ x ∈ l.filter p, f x = k := by
    intro x hx
    have := (List.mem_filter.mp hx).2
    rwa [hp, beq_iff_eq] at this
  have hpair : (l.filter p).Pairwise (fun a b => le a b = true) := by
    refine List.pairwise_of_forall_mem_list ?_
    intro a ha b hb
    rw [hle', decide_eq_true_iff, hmemk a ha, hmemk b hb]
  have hsub : (l.filter p).Sublist (jsSortSem f 1 l) := by
    have : (l.filter p).Sublist l := List.filter_sublist l
    exact List.sublist_mergeSort htrans htotal hpair this
  have hsub2 : ((l.filter p).filter p).Sublist ((jsSortSem f 1 l).filter p) :=
    List.Sublist.filter p hsub
  rw [List.filter_filter] at hsub2
  have hself : (l.filter (fun a => p a && p a)) = l.filter p := by
    simp
  rw [hself] at hsub2
  have hlen : ((jsSortSem f 1 l).filter p).length = (l.filter p).length :=
    (List.Perm.filter p (List.mergeSort_perm l le)).length_eq
  exact (List.Sublist.eq_of_length hsub2 hlen.symm).symm

/-- Counterexample for C7: two items tied on the sort key, sorted
descending and sliced with `\x7bstart: 0, end: 2\x7d`, come out in the
REVERSED relative order under the stable merge-sort model — the emitted
two-way comparator returns `1` (not `0`) on ties, sending the later tied
item ahead. -/
theorem sort_desc_tie_counterexample :
    jsSliceSem 0 2 (jsSortSem (Prod.snd : Int × Int → Int) (-1) [(1, 5), (2, 5)]) =
      [(2, 5), (1, 5)] ∧
    jsSliceSem 0 2 (jsSortSem (Prod.snd : Int × Int → Int) (-1) [(1, 5), (2, 5)]) ≠
      [(1, 5), (2, 5)] := by
  constructor
  · simp [jsSortSem, jsSliceSem, List.mergeSort, List.splitInTwo, jsSortComparator, List.merge]
  · simp [jsSortSem, jsSliceSem, List.mergeSort, List.splitInTwo, jsSortComparator, List.merge]

/-- C7 (amended). The emitted sort comparison is two-way (`dir`/`-dir`,
never `0`); under the stable merge-sort model, an ascending `sort` —
followed by any `slice \x7bstart: 0, end: n\x7d` — preserves the original
relative order among items tied on the sort key, while a descending sort
reverses tied items (concrete counterexample above). -/
theorem sort_asc_preserves_ties_and_comparator_is_two_way
    {α : Type} (f : α → Int) (l : List α) (k : Int) (n : Nat) (fld : String) :
    (jsSortSem f 1 l).filter (fun x => f x == k) = l.filter (fun x => f x == k) ∧
    ((jsSliceSem 0 n (jsSortSem f 1 l)).filter (fun x => f x == k)).Sublist
      (l.filter (fun x => f x == k)) ∧
    applyTransformation "items" (TransformOperation.sort fld SortDirection.desc) =
      "[...items].sort((a, b) => (a." ++ fld ++ " > b." ++ fld ++ " ? -1 : 1))" ∧
    applyTransformation "items" (TransformOperation.sort fld SortDirection.asc) =
      "[...items].sort((a, b) => (a." ++ fld ++ " > b." ++ fld ++ " ? 1 : -1))" := by
  refine ⟨jsSortSem_asc_stable f l k, ?_, ?_, ?_⟩
  · have htake : (jsSliceSem 0 n (jsSortSem f 1 l)).Sublist (jsSortSem f 1 l) := by
      unfold jsSliceSem
      simpa using List.take_sublist _ _
    have := List.Sublist.filter (fun x => f x == k) htake
    rwa [jsSortSem_asc_stable f l k] at this
  · simp only [applyTransformation, String.append_assoc]
    rfl
  · simp only [applyTransformation, String.append_assoc]
    rfl
